import Mathlib

/-!
Verification of the F1X caching and rate-limiting layer.

This file gives a shallow embedding of the algorithmic core of the
repository — the upstream client retry loop, the dual-window token-bucket
rate limiter, the scheduler jobs writing to the durable cache store, the
cache-only read service, and the stale-while-revalidate client cache — and
proves or refutes the specified properties about them.

Conventions of the embedding:
* JS numbers that hold epoch-millisecond timestamps are modelled as `Int`
  (or `Nat` where the source only ever moves forward in time); durations
  are the corresponding integer constants.
* Asynchronous functions are modelled by their synchronous decision
  structure: external effects (HTTP responses, the wall clock) become
  explicit oracle arguments, and the store / caches become explicit state
  that is threaded through.
* Fallible paths are `Except`/`Option`; a JS value that may be `null` is
  modelled by a JSON value type with an explicit `jnull`.
-/

namespace F1X

/-! ## Upstream client (functions/src/upstream.js)

`fetchWithRetry(url, limiter)` loops `attempt = 0 .. MAX_RETRIES`.  Each
iteration awaits `limiter.acquire()` and performs one `fetch`.  The possible
results of one fetch are: a response with some HTTP status (whose body we
abstract as a `Nat`), or a rejected promise (network error, abstracted by a
`Nat` message id). -/

/-- Result of one `fetch(url)` call: a response `res status body`, or a
network-level rejection `netErr msg`. -/
inductive FetchResult where
  | res (status : Nat) (body : Nat)
  | netErr (msg : Nat)
deriving DecidableEq

/-- How a call of `fetchWithRetry` ends:
`value b` — some attempt returned a 2xx response and the parsed body is
returned; `thrownStatus s` — the `Upstream API error s` exception
propagated out of the loop; `thrownNet m` — a network error propagated;
`undef` — the `for` loop ran out of attempts and the function returned
`undefined` (no `return` statement was reached). -/
inductive RunOutcome where
  | value (body : Nat)
  | thrownStatus (status : Nat)
  | thrownNet (msg : Nat)
  | undef
deriving DecidableEq

/-- Observable behaviour of one `fetchWithRetry` call: its outcome, the
number of `fetch` calls performed (equal to the number of
`limiter.acquire()` calls), and the backoff sleeps in order. -/
structure RunTrace where
  outcome : RunOutcome
  fetchCount : Nat
  sleeps : List Nat
deriving DecidableEq

/-- `const MAX_RETRIES = 3`. -/
def MAX_RETRIES : Nat := 3

/-- `const RETRY_BACKOFF_MS = [1000, 3000, 8000]`. -/
def RETRY_BACKOFF_MS : List Nat := [1000, 3000, 8000]

/-- `response.ok`: status in the inclusive range 200–299. -/
def isOkStatus (s : Nat) : Bool := 200 ≤ s && s < 300

/-- The body of the `for (let attempt = 0; attempt <= MAX_RETRIES; attempt++)`
loop of `fetchWithRetry`, with `remaining` the number of iterations left
(`remaining = MAX_RETRIES + 1 - attempt`, so `attempt = MAX_RETRIES` is the
case `remaining = 1`).  `oracle n` is the result of the fetch performed on
loop iteration `n`.  `RETRY_BACKOFF_MS[attempt] || fb` is
`RETRY_BACKOFF_MS.getD attempt fb` (all schedule entries are truthy). -/
def fetchLoop (oracle : Nat → FetchResult) : Nat → Nat → RunTrace
  | _, 0 => ⟨RunOutcome.undef, 0, []⟩
  | attempt, remaining + 1 =>
    match oracle attempt with
    | FetchResult.res s b =>
      if isOkStatus s then ⟨RunOutcome.value b, 1, []⟩
      else if s = 429 then
        let backoff := RETRY_BACKOFF_MS.getD attempt 8000
        let rest := fetchLoop oracle (attempt + 1) remaining
        ⟨rest.outcome, rest.fetchCount + 1, backoff :: rest.sleeps⟩
      else
        -- `throw new Error(...)` lands in this iteration's own catch block
        if remaining = 0 then ⟨RunOutcome.thrownStatus s, 1, []⟩
        else
          let backoff := RETRY_BACKOFF_MS.getD attempt 2000
          let rest := fetchLoop oracle (attempt + 1) remaining
          ⟨rest.outcome, rest.fetchCount + 1, backoff :: rest.sleeps⟩
    | FetchResult.netErr m =>
        if remaining = 0 then ⟨RunOutcome.thrownNet m, 1, []⟩
        else
          let backoff := RETRY_BACKOFF_MS.getD attempt 2000
          let rest := fetchLoop oracle (attempt + 1) remaining
          ⟨rest.outcome, rest.fetchCount + 1, backoff :: rest.sleeps⟩

/-- `fetchWithRetry(url, limiter)` with the per-attempt fetch results given
by `oracle`. -/
def fetchWithRetry (oracle : Nat → FetchResult) : RunTrace :=
  fetchLoop oracle 0 (MAX_RETRIES + 1)

/-- A list of numbers is nondecreasing (used both for backoff schedules and
for the monotone wall clock assumption). -/
def monoTimes : List Nat → Bool
  | [] => true
  | [_] => true
  | t :: u :: rest => (t ≤ u) && monoTimes (u :: rest)

/-! ## Dual token-bucket rate limiter (functions/src/upstream.js)

`class DualRateLimiter` holds two buckets.  We model each bucket as a
record (`cap` = `perSecond`/`perMinute`, `tokens` = `secondTokens`/
`minuteTokens`, `last` = `lastSecondRefill`/`lastMinuteRefill`) and the
limiter as the pair of buckets.  Timestamps are `Nat` epoch milliseconds;
`Date.now()` is monotone, so `now - last` never goes negative (with `Nat`
truncated subtraction a clock running backwards would yield 0 elapsed,
which — like the JS negative elapsed — triggers no refill). -/

/-- One token bucket of the dual limiter. -/
structure Bucket where
  cap : Nat
  tokens : Nat
  last : Nat
deriving DecidableEq

/-- One bucket's part of `_refill()` with window length `w` ms
(1000 for the second bucket, 60000 for the minute bucket):
`elapsed = (now - last) / w`; if `elapsed >= 1` then
`tokens = min(cap, tokens + floor(elapsed) * cap)` and the anchor advances
to `now`. -/
def bucketRefill (w : Nat) (b : Bucket) (now : Nat) : Bucket :=
  if w ≤ now - b.last then
    { b with tokens := min b.cap (b.tokens + ((now - b.last) / w) * b.cap), last := now }
  else b

/-- Decrement a bucket after a grant (`this.secondTokens--`). -/
def bucketDec (b : Bucket) : Bucket :=
  { b with tokens := b.tokens - 1 }

/-- Rate-limit capacities (`{ perSecond, perMinute }` from config.js). -/
structure RateLimitCfg where
  perSecond : Nat
  perMinute : Nat
deriving DecidableEq

/-- `const OPENF1_RATE_LIMIT = { perSecond: 3, perMinute: 30 }`. -/
def OPENF1_RATE_LIMIT : RateLimitCfg := ⟨3, 30⟩

/-- `const JOLPICA_RATE_LIMIT = { perSecond: 4, perMinute: 60 }`. -/
def JOLPICA_RATE_LIMIT : RateLimitCfg := ⟨4, 60⟩

/-- State of a `DualRateLimiter`: the second and minute buckets. -/
structure DualRateLimiter where
  sec : Bucket
  minute : Bucket
deriving DecidableEq

/-- The constructor: both buckets start full with anchors at the current
time `now`. -/
def DualRateLimiter.new (cfg : RateLimitCfg) (now : Nat) : DualRateLimiter :=
  { sec := ⟨cfg.perSecond, cfg.perSecond, now⟩,
    minute := ⟨cfg.perMinute, cfg.perMinute, now⟩ }

/-- `_refill()` at time `now`. -/
def DualRateLimiter.refill (st : DualRateLimiter) (now : Nat) : DualRateLimiter :=
  { sec := bucketRefill 1000 st.sec now, minute := bucketRefill 60000 st.minute now }

/-- One iteration of the `_processQueue` drain loop at time `now` with a
nonempty queue: refill both buckets, then either grant (decrementing both)
or leave the state as refilled (the loop then sleeps and retries). -/
def tryAcquire (st : DualRateLimiter) (now : Nat) : DualRateLimiter × Bool :=
  let r := st.refill now
  if 0 < r.sec.tokens ∧ 0 < r.minute.tokens then
    ({ sec := bucketDec r.sec, minute := bucketDec r.minute }, true)
  else (r, false)

/-- Run the limiter over a schedule of grant-attempt times, returning each
attempt time together with whether it was granted.  The real worker loop
performs exactly such a sequence of attempts at nondecreasing wall-clock
times (one attempt per loop iteration). -/
def runTrace (st : DualRateLimiter) : List Nat → List (Nat × Bool)
  | [] => []
  | t :: ts =>
    let p := tryAcquire st t
    (t, p.2) :: runTrace p.1 ts

/-- Number of grants in the attempt log whose time lies in the half-open
window `(a, a + w]`. -/
def grantsIn (a w : Nat) : List (Nat × Bool) → Nat
  | [] => 0
  | (t, g) :: rest =>
    (if g = true ∧ a < t ∧ t ≤ a + w then 1 else 0) + grantsIn a w rest

/-- A bucket-local abstraction of an attempt log: at each logged attempt
the bucket is refilled, and on a granted attempt the refilled bucket held a
token, which is consumed. -/
def BucketRun (w : Nat) : Bucket → List (Nat × Bool) → Prop
  | _, [] => True
  | b, (t, true) :: rest =>
      0 < (bucketRefill w b t).tokens ∧ BucketRun w (bucketDec (bucketRefill w b t)) rest
  | b, (t, false) :: rest => BucketRun w (bucketRefill w b t) rest

/-! FIFO queue model for `acquire` / `_processQueue`.  `acquire()` pushes a
resolver at the back of `this.queue`; the single drain loop (guarded by
`this.processing`) only ever grants `this.queue.shift()`, the head.  An
execution is an interleaving of enqueue events and worker-loop iterations. -/

/-- Execution state of one limiter together with its queue. -/
structure QState where
  rl : DualRateLimiter
  pending : List Nat
  granted : List Nat
  arrived : List Nat
deriving DecidableEq

/-- An execution event: a new `acquire(id)` arrives, or the worker loop
performs one iteration at wall-clock time `now`. -/
inductive QEvent where
  | enqueue (id : Nat)
  | work (now : Nat)
deriving DecidableEq

/-- Small-step semantics of the queue. -/
def qstep (s : QState) : QEvent → QState
  | QEvent.enqueue id =>
    { s with pending := s.pending ++ [id], arrived := s.arrived ++ [id] }
  | QEvent.work now =>
    match s.pending with
    | [] => s
    | id :: rest =>
      let p := tryAcquire s.rl now
      if p.2 then { s with rl := p.1, pending := rest, granted := s.granted ++ [id] }
      else { s with rl := p.1 }

/-- Run a sequence of events. -/
def qrun (s : QState) : List QEvent → QState
  | [] => s
  | e :: es => qrun (qstep s e) es

/-- Initial queue state for a freshly constructed limiter. -/
def qinit (cfg : RateLimitCfg) (t0 : Nat) : QState :=
  ⟨DualRateLimiter.new cfg t0, [], [], []⟩

/-! ## Sessions and the live window (functions/src/scheduled.js) -/

/-- `const SESSION_GRACE_PERIOD = { beforeStart, afterEnd }`. -/
structure GracePeriod where
  beforeStart : Int
  afterEnd : Int
deriving DecidableEq

/-- 30 minutes before scheduled start, 60 minutes after scheduled end. -/
def SESSION_GRACE_PERIOD : GracePeriod := ⟨30 * 60 * 1000, 60 * 60 * 1000⟩

/-- A session object as used by the scheduler.  `date_start` / `date_end`
are the epoch-millisecond values of `new Date(...).getTime()` on the ISO
date strings; `none` models an absent or empty (falsy) field. -/
structure Session where
  session_key : String
  date_start : Option Int
  date_end : Option Int
deriving DecidableEq

/-- `isSessionInLiveWindow(session)`: false for a missing session or
missing dates; otherwise true iff
`start - beforeStart <= now && now <= end + afterEnd`. -/
def isSessionInLiveWindow (session : Option Session) (now : Int) : Bool :=
  match session with
  | none => false
  | some s =>
    match s.date_start, s.date_end with
    | some ds, some de =>
      decide (ds - SESSION_GRACE_PERIOD.beforeStart ≤ now ∧
              now ≤ de + SESSION_GRACE_PERIOD.afterEnd)
    | _, _ => false

/-! ## Durable cache store and scheduler jobs
(functions/src/scheduled.js, functions/src/index.js)

Cache documents live in one Firestore collection keyed by deterministic
strings (`meetings_<year>`, `positions_<sessionKey>`, ...).  We model the
key language by an inductive type mirroring those formulas (the string
encoding is injective on the keys the code constructs).  A document's
`data` field is a JSON value, modelled by `JVal`; `jnull` is JSON `null`
(also standing for any other falsy value where the code tests
truthiness). -/

/-- A meeting object (only `meeting_key` is consulted by the scheduler). -/
structure Meeting where
  meeting_key : String
deriving DecidableEq

/-- JSON values stored in / served from the cache: `null`, an array of
abstract elements (`jarr []` is `[]`), a session object, a meetings array,
or any other payload abstracted by an id. -/
inductive JVal where
  | jnull
  | jarr (elems : List Nat)
  | jsess (s : Session)
  | jmeets (ms : List Meeting)
  | jraw (id : Nat)
deriving DecidableEq

/-- Cache keys, mirroring the deterministic key strings. -/
inductive CKey where
  | meetings (year : String)
  | sessions (meetingKey : String)
  | sessionsYear (year : String)
  | drivers (sessionKey : String)
  | driversLatest
  | positions (sessionKey : String)
  | intervals (sessionKey : String)
  | sessionResult (sessionKey : String)
  | laps (sessionKey : String) (driverNumber : String)
  | weather (sessionKey : String)
  | raceControl (sessionKey : String)
  | stints (sessionKey : String)
  | latestSession
  | driverStandings (year : String)
  | constructorStandings (year : String)
deriving DecidableEq

/-- The Firestore cache collection: key to document (a document holds the
`data` field; `none` means no document exists for that key). -/
def Store : Type := CKey → Option JVal

/-- `cacheWrite(docId, data)`: upsert the document. -/
def cacheWrite (st : Store) (k : CKey) (v : JVal) : Store :=
  fun q => if q = k then some v else st q

/-- `if (x) writes.push(cacheWrite(key, x))`: a live-data resource is
written only when its fetch resolved (`none` = the `.catch` fired) to a
truthy value (`jnull` = `null`/`undefined`, skipped). -/
def writeIf (st : Store) (k : CKey) (r : Option JVal) : Store :=
  match r with
  | some v => if v = JVal.jnull then st else cacheWrite st k v
  | none => st

/-- The value written under `latest_session`: the session object, or
JSON `null` when no session was returned. -/
def latestVal : Option Session → JVal
  | none => JVal.jnull
  | some s => JVal.jsess s

/-- The drivers double-write of `refreshLiveData` / `refreshBaseData`:
`if (drivers) { cacheWrite(drivers_<sk>, d); cacheWrite(drivers_latest, d) }`
with `r` the resolved drivers value (`none` = the fetch threw and was
caught). -/
def driversWrite (st : Store) (sk : String) (r : Option JVal) : Store :=
  match r with
  | some v =>
    if v = JVal.jnull then st
    else cacheWrite (cacheWrite st (CKey.drivers sk) v) CKey.driversLatest v
  | none => st

/-- Upstream results consumed by one `refreshLiveData` invocation:
the `fetchSessions({session_key:"latest"})` call (`Except.error` = it
threw after retries), and the seven per-resource fetches, each already
passed through `.catch(e => null)` (hence `Option`). -/
structure LiveUpstream where
  sessions : Except Nat (List Session)
  positions : Option JVal
  intervals : Option JVal
  stints : Option JVal
  weather : Option JVal
  raceControl : Option JVal
  drivers : Option JVal
  laps : Option JVal

/-- `refreshLiveData` at wall-clock time `now`: always writes
`latest_session` (the first returned session, or `null`) once the sessions
fetch succeeds; aborts silently on its top-level catch; fetches and writes
the seven live resources only inside the live window, each independently,
skipping falsy results; drivers are written under both the session-scoped
key and `drivers_latest`; laps under `laps_<sessionKey>_all`. -/
def refreshLiveData (u : LiveUpstream) (now : Int) (st : Store) : Store :=
  match u.sessions with
  | Except.error _ => st
  | Except.ok sessions =>
    let latest := sessions.head?
    let st1 := cacheWrite st CKey.latestSession (latestVal latest)
    match latest with
    | none => st1
    | some s =>
      if isSessionInLiveWindow (some s) now = false then st1
      else
        let sk := s.session_key
        let st2 := writeIf st1 (CKey.positions sk) u.positions
        let st3 := writeIf st2 (CKey.intervals sk) u.intervals
        let st4 := writeIf st3 (CKey.stints sk) u.stints
        let st5 := writeIf st4 (CKey.weather sk) u.weather
        let st6 := writeIf st5 (CKey.raceControl sk) u.raceControl
        let st7 := driversWrite st6 sk u.drivers
        writeIf st7 (CKey.laps sk "all") u.laps

/-- Upstream results consumed by one `refreshBaseData` invocation.  The
drivers fetch runs under its own try/catch (`Except.error` = it threw; an
`Except.ok` null value fails the `if (drivers)` truthiness test). -/
structure BaseUpstream where
  sessions : Except Nat (List Session)
  drivers : Except Nat JVal

/-- `refreshBaseData`: writes `latest_session` (possibly `null`) once the
sessions fetch succeeds, then refreshes drivers for that session under its
own try/catch, writing both driver keys only for a truthy result. -/
def refreshBaseData (u : BaseUpstream) (st : Store) : Store :=
  match u.sessions with
  | Except.error _ => st
  | Except.ok sessions =>
    let latest := sessions.head?
    let st1 := cacheWrite st CKey.latestSession (latestVal latest)
    match latest with
    | none => st1
    | some s => driversWrite st1 s.session_key u.drivers.toOption

/-- Upstream results consumed by one `refreshMeetings` invocation:
the year's meetings, and the per-meeting sessions fetch keyed by
`meeting_key`. -/
structure MeetingsUpstream where
  meetings : Except Nat (List Meeting)
  sessionsFor : String → Except Nat JVal

/-- The per-meeting body of `refreshMeetings`'s loop: on success write
`sessions_<meetingKey>`, on failure log and skip. -/
def meetingSessionsWrite (u : MeetingsUpstream) (acc : Store) (m : Meeting) : Store :=
  match u.sessionsFor m.meeting_key with
  | Except.ok v => cacheWrite acc (CKey.sessions m.meeting_key) v
  | Except.error _ => acc

/-- `refreshMeetings`: on success writes `meetings_<year>` and then, per
meeting, `sessions_<meetingKey>` — per-meeting failures are logged and
skipped; a top-level failure writes nothing. -/
def refreshMeetings (year : String) (u : MeetingsUpstream) (st : Store) : Store :=
  match u.meetings with
  | Except.error _ => st
  | Except.ok ms =>
    ms.foldl (meetingSessionsWrite u)
      (cacheWrite st (CKey.meetings year) (JVal.jmeets ms))

/-- Upstream results consumed by one `refreshStandings` invocation. -/
structure StandingsUpstream where
  driverStandings : Except Nat JVal
  constructorStandings : Except Nat JVal

/-- `refreshStandings`: both fetches run under `Promise.all`; if either
rejects the job's catch fires before any write, so both keys are written
or neither is. -/
def refreshStandings (year : String) (u : StandingsUpstream) (st : Store) : Store :=
  match u.driverStandings, u.constructorStandings with
  | Except.ok d, Except.ok c =>
    cacheWrite (cacheWrite st (CKey.driverStandings year) d)
      (CKey.constructorStandings year) c
  | _, _ => st

/-! ## Cache-only read service (functions/src/index.js, middleware.js) -/

/-- `const IP_RATE_LIMIT = { maxRequests: 60, windowMs: 60000 }`. -/
structure IpRateLimitCfg where
  maxRequests : Nat
  windowMs : Nat
deriving DecidableEq

def IP_RATE_LIMIT : IpRateLimitCfg := ⟨60, 60000⟩

/-- An HTTP request as consulted by the endpoints: its method and the
query parameters the handlers read (`none` = parameter absent). -/
structure Request where
  method : String
  meeting_key : Option String
  session_key : Option String
  year : Option String
  driver_number : Option String
deriving DecidableEq

/-- The read service's response, as far as the handlers distinguish it:
a 200 JSON body, 400, 429, 204 (OPTIONS preflight), or 500. -/
inductive Resp where
  | ok (v : JVal)
  | badRequest
  | tooMany
  | noContent
  | serverError
deriving DecidableEq

/-- JS truthiness of an optional query-string value: absent and the empty
string are falsy. -/
def reqStr (o : Option String) : Option String :=
  match o with
  | some s => if s = "" then none else some s
  | none => none

/-- `readCache(docId)`: `null` when no document exists, otherwise the
document's `data` field (which may itself be `null`). -/
def readCache (st : Store) (k : CKey) : JVal :=
  match st k with
  | none => JVal.jnull
  | some v => v

/-- A `createEndpoint(docIdFn)` handler run against store `st`, where
`priorHits` is the caller IP's request count already recorded in the
current rate-limit window.  Returns the response together with the number
of Firestore reads performed.  Mirrors `applyMiddleware` (OPTIONS
preflight 204; 429 once the incremented count exceeds `maxRequests`) and
then the handler body: a null/absent `docId` is 400 with no store read;
`data === null` (absent document or stored null) is 200 `[]`; otherwise
200 with the data verbatim. -/
def endpoint (docIdFn : Request → Option CKey) (st : Store) (req : Request)
    (priorHits : Nat) : Resp × Nat :=
  if req.method = "OPTIONS" then (Resp.noContent, 0)
  else if IP_RATE_LIMIT.maxRequests < priorHits + 1 then (Resp.tooMany, 0)
  else
    match docIdFn req with
    | none => (Resp.badRequest, 0)
    | some k =>
      if readCache st k = JVal.jnull then (Resp.ok (JVal.jarr []), 1)
      else (Resp.ok (readCache st k), 1)

/-- `getSessions`: `meetingKey ? sessions_<meetingKey> : null`. -/
def getSessionsDocId (req : Request) : Option CKey :=
  (reqStr req.meeting_key).map CKey.sessions

/-- `getDrivers`. -/
def getDriversDocId (req : Request) : Option CKey :=
  (reqStr req.session_key).map CKey.drivers

/-- `getPositions`. -/
def getPositionsDocId (req : Request) : Option CKey :=
  (reqStr req.session_key).map CKey.positions

/-- `getIntervals`. -/
def getIntervalsDocId (req : Request) : Option CKey :=
  (reqStr req.session_key).map CKey.intervals

/-- `getSessionResult`. -/
def getSessionResultDocId (req : Request) : Option CKey :=
  (reqStr req.session_key).map CKey.sessionResult

/-- `getLaps`: driver_number defaults to "all". -/
def getLapsDocId (req : Request) : Option CKey :=
  (reqStr req.session_key).map
    (fun sk => CKey.laps sk ((reqStr req.driver_number).getD "all"))

/-- `getWeather`. -/
def getWeatherDocId (req : Request) : Option CKey :=
  (reqStr req.session_key).map CKey.weather

/-- `getRaceControl`. -/
def getRaceControlDocId (req : Request) : Option CKey :=
  (reqStr req.session_key).map CKey.raceControl

/-- `getStints`. -/
def getStintsDocId (req : Request) : Option CKey :=
  (reqStr req.session_key).map CKey.stints

/-- `getMeetings`: year defaults to the current year. -/
def getMeetingsDocId (currentYear : String) (req : Request) : Option CKey :=
  some (CKey.meetings ((reqStr req.year).getD currentYear))

/-- `getLatestSession`: constant key. -/
def getLatestSessionDocId (_req : Request) : Option CKey :=
  some CKey.latestSession

/-- `getLatestDrivers`: constant key. -/
def getLatestDriversDocId (_req : Request) : Option CKey :=
  some CKey.driversLatest

/-! ## Client-side cache (extension/js/api.js)

`fetchBackend` keeps an in-memory `Map` backed by `localStorage`, a
`pendingRefreshes` map of in-flight background refreshes, and decides
synchronously between: fresh hit (no network), stale hit (return stale
value, start at most one background refresh), or cold fetch. -/

/-- One client cache entry `{ data, timestamp }`. -/
structure ClientEntry where
  data : JVal
  timestamp : Int
deriving DecidableEq

/-- Client cache state: the in-memory map, the localStorage tier, and the
set of keys with an in-flight background refresh. -/
structure ClientState where
  mem : String → Option ClientEntry
  ls : String → Option ClientEntry
  pending : String → Bool

/-- `cacheGet(key)`: in-memory first, then localStorage (hydrating the
in-memory tier on a localStorage hit). -/
def cacheGet (st : ClientState) (key : String) : Option ClientEntry × ClientState :=
  match st.mem key with
  | some e => (some e, st)
  | none =>
    match st.ls key with
    | some e =>
      (some e, { st with mem := fun k => if k = key then some e else st.mem k })
    | none => (none, st)

/-- Mark a key as having an in-flight background refresh
(`pendingRefreshes.set(fullCacheKey, promise)`). -/
def setPending (st : ClientState) (key : String) : ClientState :=
  { st with pending := fun k => if k = key then true else st.pending k }

/-- The synchronous part of `backgroundRefresh(url, fullCacheKey)`: bail
out if a refresh for the key is already in flight, otherwise start one
`fetch` and record it.  Returns the number of network calls started. -/
def backgroundRefresh (st : ClientState) (key : String) : Nat × ClientState :=
  if st.pending key then (0, st)
  else (1, setPending st key)

/-- What one `fetchBackend` call does synchronously. -/
inductive FetchOutcome where
  | hit (d : JVal)
  | staleHit (d : JVal)
  | networkFetch
deriving DecidableEq

/-- The synchronous decision structure of
`fetchBackend(endpoint, params, cacheKey, cacheDuration)` at time `now`:
fresh cache (`now - timestamp < cacheDuration`) returns immediately with
no network call; stale cache returns the stale data and starts at most one
background refresh; no cache means one synchronous fetch.  Returns the
outcome, the number of network calls started by this call, and the new
state. -/
def fetchBackend (st : ClientState) (key : String) (ttl now : Int) :
    FetchOutcome × Nat × ClientState :=
  let p := cacheGet st key
  match p.1 with
  | some e =>
    if now - e.timestamp < ttl then (FetchOutcome.hit e.data, 0, p.2)
    else
      let q := backgroundRefresh p.2 key
      (FetchOutcome.staleHit e.data, q.1, q.2)
  | none => (FetchOutcome.networkFetch, 1, p.2)

/-- `n` consecutive `fetchBackend` calls for the same key at the same time
(the synchronous interleaving of `n` concurrent callers on the JS event
loop).  Returns the outcomes in order, the total number of network calls
started, and the final state. -/
def fetchBackendN (st : ClientState) (key : String) (ttl now : Int) :
    Nat → List FetchOutcome × Nat × ClientState
  | 0 => ([], 0, st)
  | n + 1 =>
    let p := fetchBackend st key ttl now
    let q := fetchBackendN p.2.2 key ttl now n
    (p.1 :: q.1, p.2.1 + q.2.1, q.2.2)

end F1X

namespace F1X

/-- Claim C1 (code_bug evidence): when every attempt yields HTTP 429 the
client performs exactly `MAX_RETRIES` additional attempts after the first
(4 fetches in total) and the backoff waits 1000, 3000, 8000, 8000 ms are
nondecreasing — but after exhausting the retries the call returns
`undefined` instead of raising an `UpstreamError`: the `for` loop simply
falls through. -/
theorem fetchWithRetry_all429_returns_undefined :
    fetchWithRetry (fun _ => FetchResult.res 429 0) =
      ⟨RunOutcome.undef, MAX_RETRIES + 1, [1000, 3000, 8000, 8000]⟩ ∧
    monoTimes [1000, 3000, 8000, 8000] = true := by
  constructor
  · rfl
  · rfl

/-- Claim C2 counterexample: with a 500 response on the first attempt and a
200 on the second, `fetchWithRetry` does not fail immediately — the thrown
`Upstream API error 500` is caught by the loop's own catch block, the
client sleeps 1000 ms, performs a second fetch, and returns its body. -/
theorem fetchWithRetry_500_then_200_retries :
    fetchWithRetry (fun n => if n = 0 then FetchResult.res 500 0 else FetchResult.res 200 7) =
      ⟨RunOutcome.value 7, 2, [1000]⟩ ∧
    1 < (fetchWithRetry (fun n => if n = 0 then FetchResult.res 500 0
          else FetchResult.res 200 7)).fetchCount := by
  constructor
  · rfl
  · decide

/-- Claim C2 (amended): a non-2xx, non-429 response is thrown but caught by
the retry loop itself and retried like a transport failure, sleeping
`RETRY_BACKOFF_MS[attempt] || 2000` between attempts; the error propagates
to the caller only when it occurs on the final (4th) attempt.  Stated for a
run whose first four responses all carry such a status. -/
theorem fetchWithRetry_non2xx_retry_schedule
    (oracle : Nat → FetchResult) (s b : Nat → Nat)
    (ho : ∀ n, n ≤ MAX_RETRIES → oracle n = FetchResult.res (s n) (b n))
    (hnok : ∀ n, n ≤ MAX_RETRIES → isOkStatus (s n) = false)
    (h429 : ∀ n, n ≤ MAX_RETRIES → s n ≠ 429) :
    fetchWithRetry oracle = ⟨RunOutcome.thrownStatus (s 3), 4, [1000, 3000, 8000]⟩ := by
  have h0 := ho 0 (by decide); have h1 := ho 1 (by decide)
  have h2 := ho 2 (by decide); have h3 := ho 3 (by decide)
  have k0 := hnok 0 (by decide); have k1 := hnok 1 (by decide)
  have k2 := hnok 2 (by decide); have k3 := hnok 3 (by decide)
  have e0 := h429 0 (by decide); have e1 := h429 1 (by decide)
  have e2 := h429 2 (by decide); have e3 := h429 3 (by decide)
  simp [fetchWithRetry, MAX_RETRIES, fetchLoop, h0, h1, h2, h3, k0, k1, k2, k3,
    e0, e1, e2, e3, RETRY_BACKOFF_MS]

/-- Witness for `fetchWithRetry_non2xx_retry_schedule` at a run of four 500
responses. -/
theorem fetchWithRetry_non2xx_retry_schedule_witness :
    fetchWithRetry (fun n => FetchResult.res 500 n) =
      ⟨RunOutcome.thrownStatus 500, 4, [1000, 3000, 8000]⟩ :=
  fetchWithRetry_non2xx_retry_schedule (fun n => FetchResult.res 500 n)
    (fun _ => 500) (fun n => n)
    (fun _ _ => rfl) (fun _ _ => rfl) (fun _ _ => (by decide : (500 : Nat) ≠ 429))

/-! ### Rate limiter lemmas -/

theorem monoTimes_cons {x : Nat} {l : List Nat} (h : monoTimes (x :: l) = true) :
    monoTimes l = true ∧ ∀ y ∈ l, x ≤ y := by
  induction l generalizing x with
  | nil => exact ⟨rfl, by intro y hy; cases hy⟩
  | cons u rest ih =>
    have hx : x ≤ u ∧ monoTimes (u :: rest) = true := by
      simpa [monoTimes, Bool.and_eq_true, decide_eq_true_eq] using h
    obtain ⟨hxu, hm⟩ := hx
    refine ⟨hm, ?_⟩
    intro y hy
    rcases List.mem_cons.mp hy with h1 | h2
    · exact h1 ▸ hxu
    · exact le_trans hxu ((ih hm).2 y h2)

theorem bucketRefill_cap (w : Nat) (b : Bucket) (t : Nat) :
    (bucketRefill w b t).cap = b.cap := by
  unfold bucketRefill; split <;> rfl

theorem bucketRefill_tokens_le (w : Nat) (b : Bucket) (t : Nat)
    (h : b.tokens ≤ b.cap) : (bucketRefill w b t).tokens ≤ b.cap := by
  unfold bucketRefill; split
  · exact min_le_left _ _
  · exact h

theorem grantsIn_zero_of_gt (a w : Nat) (out : List (Nat × Bool))
    (h : ∀ e ∈ out, a + w < e.1) : grantsIn a w out = 0 := by
  induction out with
  | nil => rfl
  | cons e rest ih =>
    obtain ⟨t, g⟩ := e
    have ht : a + w < t := h (t, g) (List.mem_cons_self _ _)
    have : ¬ (g = true ∧ a < t ∧ t ≤ a + w) := by
      rintro ⟨-, -, hle⟩; omega
    simp only [grantsIn, if_neg this, Nat.zero_add]
    exact ih fun e he => h e (List.mem_cons_of_mem _ he)

theorem bucketDec_tokens (b : Bucket) : (bucketDec b).tokens = b.tokens - 1 := rfl

theorem bucketDec_cap (b : Bucket) : (bucketDec b).cap = b.cap := rfl

theorem bucketDec_last (b : Bucket) : (bucketDec b).last = b.last := rfl

theorem bucketRefill_last_pos (w : Nat) (b : Bucket) (t : Nat)
    (hr : w ≤ t - b.last) : (bucketRefill w b t).last = t := by
  unfold bucketRefill; rw [if_pos hr]

theorem bucketRefill_neg (w : Nat) (b : Bucket) (t : Nat)
    (hr : ¬ (w ≤ t - b.last)) : bucketRefill w b t = b := by
  unfold bucketRefill; rw [if_neg hr]

theorem bucket_window_in (w a : Nat) (hw : 0 < w) :
    ∀ (out : List (Nat × Bool)) (b : Bucket),
      BucketRun w b out →
      b.tokens ≤ b.cap →
      monoTimes (out.map Prod.fst) = true →
      (∀ e ∈ out, a < e.1) →
      grantsIn a w out ≤ b.tokens + (if b.last ≤ a then b.cap else 0)
  | [], _, _, _, _, _ => by simp [grantsIn]
  | (t, g) :: rest, b, hrun, htok, hmono, hgt => by
    have hmono' := monoTimes_cons (by simpa using hmono)
    have hrestmono : monoTimes (rest.map Prod.fst) = true := hmono'.1
    have hrestgt : ∀ e ∈ rest, a < e.1 := fun e he => hgt e (List.mem_cons_of_mem _ he)
    have hta : a < t := hgt (t, g) (List.mem_cons_self _ _)
    have hcapr : (bucketRefill w b t).cap = b.cap := bucketRefill_cap w b t
    have htokr : (bucketRefill w b t).tokens ≤ b.cap := bucketRefill_tokens_le w b t htok
    by_cases hW : t ≤ a + w
    · -- the head attempt lies inside the window
      by_cases hr : w ≤ t - b.last
      · -- the bucket refills at t; this forces b.last ≤ a
        have hba : b.last ≤ a := by omega
        have hlastr : (bucketRefill w b t).last = t := bucketRefill_last_pos w b t hr
        cases g with
        | true =>
          obtain ⟨hpos, hrun'⟩ := hrun
          have ih := bucket_window_in w a hw rest (bucketDec (bucketRefill w b t)) hrun'
            (by rw [bucketDec_tokens, bucketDec_cap, hcapr]; omega)
            hrestmono hrestgt
          rw [bucketDec_tokens, bucketDec_cap, bucketDec_last, hlastr] at ih
          rw [if_neg (by omega : ¬ (t ≤ a))] at ih
          have hcond : True ∧ a < t ∧ t ≤ a + w := ⟨trivial, hta, hW⟩
          simp only [grantsIn]
          rw [if_pos hcond, if_pos hba]
          omega
        | false =>
          have hrun' : BucketRun w (bucketRefill w b t) rest := hrun
          have ih := bucket_window_in w a hw rest (bucketRefill w b t) hrun'
            (by rw [hcapr]; exact htokr) hrestmono hrestgt
          rw [hlastr, if_neg (by omega : ¬ (t ≤ a))] at ih
          have hcond : ¬ (false = true ∧ a < t ∧ t ≤ a + w) := by simp
          simp only [grantsIn]
          rw [if_neg hcond, if_pos hba]
          omega
      · -- no refill: the bucket is unchanged by the attempt
        have hb1 : bucketRefill w b t = b := bucketRefill_neg w b t hr
        cases g with
        | true =>
          obtain ⟨hpos, hrun'⟩ := hrun
          rw [hb1] at hpos hrun'
          have ih := bucket_window_in w a hw rest (bucketDec b) hrun'
            (by rw [bucketDec_tokens, bucketDec_cap]; omega) hrestmono hrestgt
          rw [bucketDec_tokens, bucketDec_cap, bucketDec_last] at ih
          have hcond : True ∧ a < t ∧ t ≤ a + w := ⟨trivial, hta, hW⟩
          simp only [grantsIn]
          rw [if_pos hcond]
          by_cases hba : b.last ≤ a
          · rw [if_pos hba] at ih ⊢; omega
          · rw [if_neg hba] at ih ⊢; omega
        | false =>
          have hrun' : BucketRun w (bucketRefill w b t) rest := hrun
          rw [hb1] at hrun'
          have ih := bucket_window_in w a hw rest b hrun' htok hrestmono hrestgt
          have hcond : ¬ (false = true ∧ a < t ∧ t ≤ a + w) := by simp
          simp only [grantsIn]
          rw [if_neg hcond]
          omega
    · -- the head attempt (and by monotonicity every later one) is past the window
      have hallgt : ∀ e ∈ (t, g) :: rest, a + w < e.1 := by
        intro e he
        rcases List.mem_cons.mp he with h1 | h2
        · rw [h1]; omega
        · have : t ≤ e.1 := hmono'.2 e.1 (List.mem_map.mpr ⟨e, h2, rfl⟩)
          omega
      rw [grantsIn_zero_of_gt a w _ hallgt]
      omega

theorem bucket_window_all (w a : Nat) (hw : 0 < w) :
    ∀ (out : List (Nat × Bool)) (b : Bucket),
      BucketRun w b out →
      b.tokens ≤ b.cap →
      monoTimes (out.map Prod.fst) = true →
      grantsIn a w out ≤ 2 * b.cap
  | [], _, _, _, _ => by simp [grantsIn]
  | (t, g) :: rest, b, hrun, htok, hmono => by
    have hmono' := monoTimes_cons (by simpa using hmono)
    have hcapr : (bucketRefill w b t).cap = b.cap := bucketRefill_cap w b t
    have htokr : (bucketRefill w b t).tokens ≤ b.cap := bucketRefill_tokens_le w b t htok
    by_cases hta : a < t
    · have hgt : ∀ e ∈ (t, g) :: rest, a < e.1 := by
        intro e he
        rcases List.mem_cons.mp he with h1 | h2
        · rw [h1]; exact hta
        · have : t ≤ e.1 := hmono'.2 e.1 (List.mem_map.mpr ⟨e, h2, rfl⟩)
          omega
      have h := bucket_window_in w a hw ((t, g) :: rest) b hrun htok hmono hgt
      by_cases hba : b.last ≤ a
      · rw [if_pos hba] at h; omega
      · rw [if_neg hba] at h; omega
    · cases g with
      | true =>
        have hcond : ¬ (True ∧ a < t ∧ t ≤ a + w) := fun hc => hta hc.2.1
        obtain ⟨hpos, hrun'⟩ := hrun
        have ih := bucket_window_all w a hw rest (bucketDec (bucketRefill w b t)) hrun'
          (by rw [bucketDec_tokens, bucketDec_cap, hcapr]; omega) hmono'.1
        rw [bucketDec_cap, hcapr] at ih
        simp only [grantsIn]
        rw [if_neg hcond]
        omega
      | false =>
        have hcond : ¬ (false = true ∧ a < t ∧ t ≤ a + w) := by simp
        have hrun' : BucketRun w (bucketRefill w b t) rest := hrun
        have ih := bucket_window_all w a hw rest (bucketRefill w b t) hrun'
          (by rw [hcapr]; exact htokr) hmono'.1
        rw [hcapr] at ih
        simp only [grantsIn]
        rw [if_neg hcond]
        omega

theorem runTrace_map_fst (ts : List Nat) :
    ∀ st : DualRateLimiter, (runTrace st ts).map Prod.fst = ts := by
  induction ts with
  | nil => intro st; rfl
  | cons t ts ih =>
    intro st
    simp only [runTrace, List.map_cons]
    exact congrArg (t :: ·) (ih _)

theorem runTrace_secRun (ts : List Nat) :
    ∀ st : DualRateLimiter, BucketRun 1000 st.sec (runTrace st ts) := by
  induction ts with
  | nil => intro st; trivial
  | cons t ts ih =>
    intro st
    simp only [runTrace, tryAcquire]
    by_cases h : 0 < (st.refill t).sec.tokens ∧ 0 < (st.refill t).minute.tokens
    · rw [if_pos h]
      exact ⟨h.1, ih ⟨bucketDec (st.refill t).sec, bucketDec (st.refill t).minute⟩⟩
    · rw [if_neg h]
      exact ih (st.refill t)

theorem runTrace_minuteRun (ts : List Nat) :
    ∀ st : DualRateLimiter, BucketRun 60000 st.minute (runTrace st ts) := by
  induction ts with
  | nil => intro st; trivial
  | cons t ts ih =>
    intro st
    simp only [runTrace, tryAcquire]
    by_cases h : 0 < (st.refill t).sec.tokens ∧ 0 < (st.refill t).minute.tokens
    · rw [if_pos h]
      exact ⟨h.2, ih ⟨bucketDec (st.refill t).sec, bucketDec (st.refill t).minute⟩⟩
    · rw [if_neg h]
      exact ih (st.refill t)

/-- Claim C3 counterexample: an OpenF1 limiter (3/s, 30/min) constructed at
time 0 grants three `acquire` calls at t = 500 ms and — after the second
bucket refills to full capacity and its anchor advances — three more at
t = 1000 ms: six grants inside the single rolling 1-second window
(0, 1000], exceeding the claimed per-second ceiling of 3. -/
theorem dualRateLimiter_six_grants_in_one_second :
    ¬ (grantsIn 0 1000 (runTrace (DualRateLimiter.new OPENF1_RATE_LIMIT 0)
        [500, 500, 500, 1000, 1000, 1000]) ≤ OPENF1_RATE_LIMIT.perSecond) := by
  decide

/-- Claim C3 (amended): for every capacity configuration (S, M), every
construction time, and every nondecreasing schedule of grant-attempt
times, at most `2 * S` grants fall in any rolling half-open 1-second
window and at most `2 * M` in any rolling 60-second window.  (The factor
2 is forced: the lazy anchor-advancing refill restores a full bucket at
the window boundary, as the counterexample shows.) -/
theorem dualRateLimiter_rolling_windows (cfg : RateLimitCfg) (t0 a : Nat)
    (ts : List Nat) (hmono : monoTimes ts = true) :
    grantsIn a 1000 (runTrace (DualRateLimiter.new cfg t0) ts) ≤ 2 * cfg.perSecond ∧
    grantsIn a 60000 (runTrace (DualRateLimiter.new cfg t0) ts) ≤ 2 * cfg.perMinute := by
  have hm : monoTimes ((runTrace (DualRateLimiter.new cfg t0) ts).map Prod.fst) = true := by
    rw [runTrace_map_fst]; exact hmono
  constructor
  · have h := bucket_window_all 1000 a (by decide) (runTrace (DualRateLimiter.new cfg t0) ts)
      (DualRateLimiter.new cfg t0).sec (runTrace_secRun ts _) (le_refl _) hm
    exact h
  · have h := bucket_window_all 60000 a (by decide) (runTrace (DualRateLimiter.new cfg t0) ts)
      (DualRateLimiter.new cfg t0).minute (runTrace_minuteRun ts _) (le_refl _) hm
    exact h

/-- Witness for `dualRateLimiter_rolling_windows` at the concrete schedule
of the counterexample. -/
theorem dualRateLimiter_rolling_windows_witness :
    grantsIn 0 1000 (runTrace (DualRateLimiter.new OPENF1_RATE_LIMIT 0)
      [500, 500, 500, 1000, 1000, 1000]) ≤ 2 * OPENF1_RATE_LIMIT.perSecond ∧
    grantsIn 0 60000 (runTrace (DualRateLimiter.new OPENF1_RATE_LIMIT 0)
      [500, 500, 500, 1000, 1000, 1000]) ≤ 2 * OPENF1_RATE_LIMIT.perMinute :=
  dualRateLimiter_rolling_windows OPENF1_RATE_LIMIT 0 0
    [500, 500, 500, 1000, 1000, 1000] rfl

theorem qrun_arrived_invariant (evs : List QEvent) :
    ∀ s : QState, s.arrived = s.granted ++ s.pending →
      (qrun s evs).arrived = (qrun s evs).granted ++ (qrun s evs).pending := by
  induction evs with
  | nil => intro s h; exact h
  | cons e es ih =>
    intro s h
    refine ih (qstep s e) ?_
    cases e with
    | enqueue id =>
      simp only [qstep]
      rw [h, List.append_assoc]
    | work now =>
      cases hp : s.pending with
      | nil =>
        simp only [qstep, hp]
        rw [h, hp]
      | cons id rest =>
        simp only [qstep, hp]
        by_cases hg : (tryAcquire s.rl now).2 = true
        · rw [if_pos hg]
          show s.arrived = (s.granted ++ [id]) ++ rest
          rw [h, hp, List.append_assoc, List.singleton_append]
        · rw [if_neg hg]
          show s.arrived = s.granted ++ (id :: rest)
          rw [h, hp]

/-- Claim C7: grants are handed out strictly in arrival order.  For every
interleaving of `acquire` arrivals and worker-loop iterations, the list of
granted requests is an initial segment, in order, of the list of arrivals
(so if A was enqueued before B, A is granted no later than B). -/
theorem rateLimiter_fifo_grant_order (cfg : RateLimitCfg) (t0 : Nat)
    (evs : List QEvent) :
    (qrun (qinit cfg t0) evs).arrived =
      (qrun (qinit cfg t0) evs).granted ++ (qrun (qinit cfg t0) evs).pending ∧
    (qrun (qinit cfg t0) evs).granted =
      (qrun (qinit cfg t0) evs).arrived.take
        (qrun (qinit cfg t0) evs).granted.length := by
  have h := qrun_arrived_invariant evs (qinit cfg t0) rfl
  refine ⟨h, ?_⟩
  rw [h, List.take_left]

/-! ### Live window -/

/-- Claim C6: for a session with both dates present, `isSessionInLiveWindow`
returns true exactly when `now` lies in the closed interval
`[start - 30 min, end + 60 min]` (boundary-inclusive at both ends), and
false for any `now` strictly outside either boundary. -/
theorem isSessionInLiveWindow_iff_interval (k : String) (ds de now : Int) :
    isSessionInLiveWindow (some ⟨k, some ds, some de⟩) now = true ↔
      (ds - 30 * 60 * 1000 ≤ now ∧ now ≤ de + 60 * 60 * 1000) := by
  simp [isSessionInLiveWindow, SESSION_GRACE_PERIOD]

/-! ### Read service -/

theorem endpoint_no_docid (docIdFn : Request → Option CKey) (st : Store)
    (req : Request) (priorHits : Nat) (hget : ¬ (req.method = "OPTIONS"))
    (hok : priorHits + 1 ≤ IP_RATE_LIMIT.maxRequests)
    (hdoc : docIdFn req = none) :
    endpoint docIdFn st req priorHits = (Resp.badRequest, 0) := by
  unfold endpoint
  rw [if_neg hget, if_neg (Nat.not_lt.mpr hok), hdoc]

theorem endpoint_reads_doc (docIdFn : Request → Option CKey) (st : Store)
    (req : Request) (priorHits : Nat) (k : CKey)
    (hget : ¬ (req.method = "OPTIONS"))
    (hok : priorHits + 1 ≤ IP_RATE_LIMIT.maxRequests)
    (hdoc : docIdFn req = some k) :
    endpoint docIdFn st req priorHits =
      (if readCache st k = JVal.jnull then (Resp.ok (JVal.jarr []), 1)
       else (Resp.ok (readCache st k), 1)) := by
  unfold endpoint
  rw [if_neg hget, if_neg (Nat.not_lt.mpr hok), hdoc]

/-- Claim C8: for every endpoint whose cache key needs an identifying
parameter, a GET request (within the IP rate limit) that lacks that
parameter is answered 400 and performs no Firestore read, whatever the
store holds. -/
theorem readService_missing_param_400 (st : Store) (req : Request)
    (priorHits : Nat) (hget : req.method = "GET")
    (hok : priorHits + 1 ≤ IP_RATE_LIMIT.maxRequests)
    (hmk : req.meeting_key = none) (hsk : req.session_key = none) :
    endpoint getSessionsDocId st req priorHits = (Resp.badRequest, 0) ∧
    endpoint getDriversDocId st req priorHits = (Resp.badRequest, 0) ∧
    endpoint getPositionsDocId st req priorHits = (Resp.badRequest, 0) ∧
    endpoint getIntervalsDocId st req priorHits = (Resp.badRequest, 0) ∧
    endpoint getSessionResultDocId st req priorHits = (Resp.badRequest, 0) ∧
    endpoint getLapsDocId st req priorHits = (Resp.badRequest, 0) ∧
    endpoint getWeatherDocId st req priorHits = (Resp.badRequest, 0) ∧
    endpoint getRaceControlDocId st req priorHits = (Resp.badRequest, 0) ∧
    endpoint getStintsDocId st req priorHits = (Resp.badRequest, 0) := by
  have hno : ¬ (req.method = "OPTIONS") := by rw [hget]; decide
  exact ⟨endpoint_no_docid _ _ _ _ hno hok (by simp [getSessionsDocId, reqStr, hmk]),
    endpoint_no_docid _ _ _ _ hno hok (by simp [getDriversDocId, reqStr, hsk]),
    endpoint_no_docid _ _ _ _ hno hok (by simp [getPositionsDocId, reqStr, hsk]),
    endpoint_no_docid _ _ _ _ hno hok (by simp [getIntervalsDocId, reqStr, hsk]),
    endpoint_no_docid _ _ _ _ hno hok (by simp [getSessionResultDocId, reqStr, hsk]),
    endpoint_no_docid _ _ _ _ hno hok (by simp [getLapsDocId, reqStr, hsk]),
    endpoint_no_docid _ _ _ _ hno hok (by simp [getWeatherDocId, reqStr, hsk]),
    endpoint_no_docid _ _ _ _ hno hok (by simp [getRaceControlDocId, reqStr, hsk]),
    endpoint_no_docid _ _ _ _ hno hok (by simp [getStintsDocId, reqStr, hsk])⟩

/-- Witness for `readService_missing_param_400`: a GET request with no
query parameters at all against an empty store. -/
theorem readService_missing_param_400_witness :
    endpoint getSessionsDocId (fun _ => none) ⟨"GET", none, none, none, none⟩ 0 =
      (Resp.badRequest, 0) ∧
    endpoint getDriversDocId (fun _ => none) ⟨"GET", none, none, none, none⟩ 0 =
      (Resp.badRequest, 0) ∧
    endpoint getPositionsDocId (fun _ => none) ⟨"GET", none, none, none, none⟩ 0 =
      (Resp.badRequest, 0) ∧
    endpoint getIntervalsDocId (fun _ => none) ⟨"GET", none, none, none, none⟩ 0 =
      (Resp.badRequest, 0) ∧
    endpoint getSessionResultDocId (fun _ => none) ⟨"GET", none, none, none, none⟩ 0 =
      (Resp.badRequest, 0) ∧
    endpoint getLapsDocId (fun _ => none) ⟨"GET", none, none, none, none⟩ 0 =
      (Resp.badRequest, 0) ∧
    endpoint getWeatherDocId (fun _ => none) ⟨"GET", none, none, none, none⟩ 0 =
      (Resp.badRequest, 0) ∧
    endpoint getRaceControlDocId (fun _ => none) ⟨"GET", none, none, none, none⟩ 0 =
      (Resp.badRequest, 0) ∧
    endpoint getStintsDocId (fun _ => none) ⟨"GET", none, none, none, none⟩ 0 =
      (Resp.badRequest, 0) :=
  readService_missing_param_400 (fun _ => none) ⟨"GET", none, none, none, none⟩ 0
    rfl (by decide) rfl rfl

/-- Claim C9: for every endpoint and every request whose cache key is
validly constructed, if the store holds no document for that key the
response is 200 with the empty array — absence is a successful empty
result, not an error. -/
theorem readService_absent_doc_200_empty (docIdFn : Request → Option CKey)
    (st : Store) (req : Request) (priorHits : Nat) (k : CKey)
    (hget : ¬ (req.method = "OPTIONS"))
    (hok : priorHits + 1 ≤ IP_RATE_LIMIT.maxRequests)
    (hdoc : docIdFn req = some k) (habs : st k = none) :
    endpoint docIdFn st req priorHits = (Resp.ok (JVal.jarr []), 1) := by
  have hr : readCache st k = JVal.jnull := by unfold readCache; rw [habs]
  rw [endpoint_reads_doc docIdFn st req priorHits k hget hok hdoc, if_pos hr]

/-- Witness for `readService_absent_doc_200_empty`: `getLatestSession`
against the empty store. -/
theorem readService_absent_doc_200_empty_witness :
    endpoint getLatestSessionDocId (fun _ => none) ⟨"GET", none, none, none, none⟩ 0 =
      (Resp.ok (JVal.jarr []), 1) :=
  readService_absent_doc_200_empty getLatestSessionDocId (fun _ => none)
    ⟨"GET", none, none, none, none⟩ 0 CKey.latestSession (by decide) (by decide) rfl rfl

/-- Claim C10: `readCache` returns `null` both for an absent document and
for a stored document whose `data` field is `null`, so every endpoint
answers 200 `[]` in both situations; in particular, after `refreshLiveData`
finds no latest session it stores `null` under `latest_session`, and
`getLatestSession` then serves `[]`, not the stored `null`. -/
theorem readService_null_data_conflation (st : Store) (req : Request)
    (priorHits : Nat) (docIdFn : Request → Option CKey) (k : CKey)
    (u : LiveUpstream) (now : Int) (st0 : Store)
    (hget : ¬ (req.method = "OPTIONS"))
    (hok : priorHits + 1 ≤ IP_RATE_LIMIT.maxRequests)
    (hdoc : docIdFn req = some k) (hnull : st k = some JVal.jnull)
    (hsess : u.sessions = Except.ok []) :
    readCache st k = JVal.jnull ∧
    readCache (fun _ => none) k = JVal.jnull ∧
    endpoint docIdFn st req priorHits = (Resp.ok (JVal.jarr []), 1) ∧
    refreshLiveData u now st0 CKey.latestSession = some JVal.jnull ∧
    endpoint getLatestSessionDocId (refreshLiveData u now st0) req priorHits =
      (Resp.ok (JVal.jarr []), 1) := by
  have hr : readCache st k = JVal.jnull := by unfold readCache; rw [hnull]
  have hw : refreshLiveData u now st0 CKey.latestSession = some JVal.jnull := by
    simp [refreshLiveData, hsess, latestVal, cacheWrite]
  refine ⟨hr, rfl, ?_, hw, ?_⟩
  · rw [endpoint_reads_doc docIdFn st req priorHits k hget hok hdoc, if_pos hr]
  · have hr2 : readCache (refreshLiveData u now st0) CKey.latestSession = JVal.jnull := by
      unfold readCache; rw [hw]
    rw [endpoint_reads_doc getLatestSessionDocId (refreshLiveData u now st0) req
      priorHits CKey.latestSession hget hok rfl, if_pos hr2]

/-- Witness for `readService_null_data_conflation`: the store holding a
`null` document under `latest_session`, and a `refreshLiveData` run whose
sessions fetch succeeded with an empty array. -/
theorem readService_null_data_conflation_witness :
    readCache (fun _ => some JVal.jnull) CKey.latestSession = JVal.jnull ∧
    readCache (fun _ => none) CKey.latestSession = JVal.jnull ∧
    endpoint getLatestSessionDocId (fun _ => some JVal.jnull)
      ⟨"GET", none, none, none, none⟩ 0 = (Resp.ok (JVal.jarr []), 1) ∧
    refreshLiveData ⟨Except.ok [], none, none, none, none, none, none, none⟩ 0
      (fun _ => none) CKey.latestSession = some JVal.jnull ∧
    endpoint getLatestSessionDocId
      (refreshLiveData ⟨Except.ok [], none, none, none, none, none, none, none⟩ 0
        (fun _ => none)) ⟨"GET", none, none, none, none⟩ 0 =
      (Resp.ok (JVal.jarr []), 1) :=
  readService_null_data_conflation (fun _ => some JVal.jnull)
    ⟨"GET", none, none, none, none⟩ 0 getLatestSessionDocId CKey.latestSession
    ⟨Except.ok [], none, none, none, none, none, none, none⟩ 0 (fun _ => none)
    (by decide) (by decide) rfl rfl rfl

/-! ### Scheduler frame properties -/

theorem cacheWrite_ne (st : Store) (k q : CKey) (v : JVal) (h : q ≠ k) :
    cacheWrite st k v q = st q := by
  unfold cacheWrite; rw [if_neg h]

theorem writeIf_failed (st : Store) (k : CKey) (r : Option JVal)
    (h : r = none ∨ r = some JVal.jnull) : writeIf st k r = st := by
  rcases h with h | h <;> rw [h] <;> simp [writeIf]

theorem writeIf_none (st : Store) (k : CKey) : writeIf st k none = st := rfl

theorem writeIf_jnull (st : Store) (k : CKey) : writeIf st k (some JVal.jnull) = st := by
  simp [writeIf]

theorem driversWrite_none (st : Store) (sk : String) : driversWrite st sk none = st := rfl

theorem driversWrite_jnull (st : Store) (sk : String) :
    driversWrite st sk (some JVal.jnull) = st := by
  simp [driversWrite]

theorem driversWrite_ne (st : Store) (sk : String) (r : Option JVal) (q : CKey)
    (h1 : q ≠ CKey.drivers sk) (h2 : q ≠ CKey.driversLatest) :
    driversWrite st sk r q = st q := by
  cases r with
  | none => rfl
  | some v =>
    by_cases hv : v = JVal.jnull
    · simp [driversWrite, hv]
    · simp only [driversWrite]
      rw [if_neg hv, cacheWrite_ne _ _ _ _ h2, cacheWrite_ne _ _ _ _ h1]

theorem meetingsFold_frame (u : MeetingsUpstream) (mk : String) (e : Nat)
    (hsf : u.sessionsFor mk = Except.error e) :
    ∀ (ms : List Meeting) (acc : Store),
      (ms.foldl (meetingSessionsWrite u) acc) (CKey.sessions mk) =
        acc (CKey.sessions mk) := by
  intro ms
  induction ms with
  | nil => intro acc; rfl
  | cons m ms ih =>
    intro acc
    rw [List.foldl_cons, ih]
    rcases hm : u.sessionsFor m.meeting_key with e2 | v
    · simp [meetingSessionsWrite, hm]
    · have hne : CKey.sessions mk ≠ CKey.sessions m.meeting_key := by
        intro hkeq
        have h2 : mk = m.meeting_key := by injection hkeq
        rw [h2, hm] at hsf
        exact Except.noConfusion hsf
      simp only [meetingSessionsWrite, hm]
      exact cacheWrite_ne _ _ _ _ hne

theorem writeIf_ne (st : Store) (k q : CKey) (r : Option JVal) (h : q ≠ k) :
    writeIf st k r q = st q := by
  cases r with
  | none => rfl
  | some v =>
    by_cases hv : v = JVal.jnull
    · simp [writeIf, hv]
    · simp only [writeIf]
      rw [if_neg hv]
      exact cacheWrite_ne st k q v h

/-- Claim C4 counterexample: a `refreshLiveData` run whose sessions fetch
succeeds but returns no session ("no usable result") overwrites the
previously stored good document under `latest_session` with `null`,
clearing the last good value. -/
theorem refreshLiveData_overwrites_latest_session :
    refreshLiveData ⟨Except.ok [], none, none, none, none, none, none, none⟩ 0
        (fun q => if q = CKey.latestSession
                  then some (JVal.jsess ⟨"9599", some 0, some 1⟩) else none)
        CKey.latestSession = some JVal.jnull ∧
    (fun q => if q = CKey.latestSession
              then some (JVal.jsess ⟨"9599", some 0, some 1⟩) else none : Store)
        CKey.latestSession = some (JVal.jsess ⟨"9599", some 0, some 1⟩) ∧
    JVal.jnull ≠ JVal.jsess ⟨"9599", some 0, some 1⟩ := by
  refine ⟨rfl, rfl, by decide⟩

/-- Claim C4 (amended): every scheduler job absorbs its own top-level
error (the embeddings are total functions of the upstream results) and a
failed fetch leaves the previously stored entry for its key unchanged —
with one exception forced by the counterexample: `refreshLiveData` and
`refreshBaseData` always rewrite `latest_session` once the sessions fetch
succeeds, storing `null` when it returns no sessions.  In detail:
a top-level failure of any job writes nothing at all; a failed per-meeting
sessions fetch leaves that `sessions_<meetingKey>` entry unchanged; a
failed driver- or constructor-standings fetch leaves both standings keys
unchanged; a failed or null live-data resource fetch leaves the
corresponding resource keys unchanged. -/
theorem scheduler_failed_refresh_preserves_entries :
    (∀ (year : String) (u : MeetingsUpstream) (st : Store) (e : Nat),
      u.meetings = Except.error e → refreshMeetings year u st = st) ∧
    (∀ (year : String) (u : MeetingsUpstream) (st : Store) (ms : List Meeting)
        (mk : String) (e : Nat),
      u.meetings = Except.ok ms → u.sessionsFor mk = Except.error e →
        refreshMeetings year u st (CKey.sessions mk) = st (CKey.sessions mk)) ∧
    (∀ (year : String) (u : StandingsUpstream) (st : Store),
      ((∃ e, u.driverStandings = Except.error e) ∨
       (∃ e, u.constructorStandings = Except.error e)) →
        refreshStandings year u st = st) ∧
    (∀ (u : LiveUpstream) (now : Int) (st : Store) (e : Nat),
      u.sessions = Except.error e → refreshLiveData u now st = st) ∧
    (∀ (u : LiveUpstream) (now : Int) (st : Store) (sk : String),
      (u.positions = none ∨ u.positions = some JVal.jnull) →
        refreshLiveData u now st (CKey.positions sk) = st (CKey.positions sk)) ∧
    (∀ (u : LiveUpstream) (now : Int) (st : Store) (sk : String),
      (u.intervals = none ∨ u.intervals = some JVal.jnull) →
        refreshLiveData u now st (CKey.intervals sk) = st (CKey.intervals sk)) ∧
    (∀ (u : LiveUpstream) (now : Int) (st : Store) (sk : String),
      (u.stints = none ∨ u.stints = some JVal.jnull) →
        refreshLiveData u now st (CKey.stints sk) = st (CKey.stints sk)) ∧
    (∀ (u : LiveUpstream) (now : Int) (st : Store) (sk : String),
      (u.weather = none ∨ u.weather = some JVal.jnull) →
        refreshLiveData u now st (CKey.weather sk) = st (CKey.weather sk)) ∧
    (∀ (u : LiveUpstream) (now : Int) (st : Store) (sk : String),
      (u.raceControl = none ∨ u.raceControl = some JVal.jnull) →
        refreshLiveData u now st (CKey.raceControl sk) = st (CKey.raceControl sk)) ∧
    (∀ (u : LiveUpstream) (now : Int) (st : Store) (sk : String),
      (u.drivers = none ∨ u.drivers = some JVal.jnull) →
        refreshLiveData u now st (CKey.drivers sk) = st (CKey.drivers sk) ∧
        refreshLiveData u now st CKey.driversLatest = st CKey.driversLatest) ∧
    (∀ (u : LiveUpstream) (now : Int) (st : Store) (sk d : String),
      (u.laps = none ∨ u.laps = some JVal.jnull) →
        refreshLiveData u now st (CKey.laps sk d) = st (CKey.laps sk d)) ∧
    (∀ (u : BaseUpstream) (st : Store) (e : Nat),
      u.sessions = Except.error e → refreshBaseData u st = st) ∧
    (∀ (u : BaseUpstream) (st : Store) (sk : String),
      ((∃ e, u.drivers = Except.error e) ∨ u.drivers = Except.ok JVal.jnull) →
        refreshBaseData u st (CKey.drivers sk) = st (CKey.drivers sk) ∧
        refreshBaseData u st CKey.driversLatest = st CKey.driversLatest) := by
  refine ⟨?_, ?_, ?_, ?_, ?_, ?_, ?_, ?_, ?_, ?_, ?_, ?_, ?_⟩
  · intro year u st e hs
    simp [refreshMeetings, hs]
  · intro year u st ms mk e hms hsf
    simp only [refreshMeetings, hms]
    rw [meetingsFold_frame u mk e hsf]
    exact cacheWrite_ne _ _ _ _ (fun h => CKey.noConfusion h)
  · intro year u st hfail
    rcases hd : u.driverStandings with ed | dv
    all_goals rcases hc : u.constructorStandings with ec | cv
    · simp [refreshStandings, hd, hc]
    · simp [refreshStandings, hd, hc]
    · simp [refreshStandings, hd, hc]
    · exfalso
      rcases hfail with ⟨e, he⟩ | ⟨e, he⟩
      · rw [hd] at he; exact Except.noConfusion he
      · rw [hc] at he; exact Except.noConfusion he
  · intro u now st e hs
    simp [refreshLiveData, hs]
  · intro u now st sk hfail
    rcases hs : u.sessions with e | ss
    · simp [refreshLiveData, hs]
    · cases ss with
      | nil => simp [refreshLiveData, hs, latestVal, cacheWrite]
      | cons s rest =>
        simp only [refreshLiveData, hs, List.head?_cons]
        by_cases hlive : isSessionInLiveWindow (some s) now = false
        · rw [if_pos hlive]
          exact cacheWrite_ne _ _ _ _ (fun h => CKey.noConfusion h)
        · rw [if_neg hlive]
          rcases hfail with hp | hp <;>
            simp [hp, writeIf_ne, driversWrite_ne, cacheWrite_ne, writeIf_none,
              writeIf_jnull, driversWrite_none, driversWrite_jnull]
  · intro u now st sk hfail
    rcases hs : u.sessions with e | ss
    · simp [refreshLiveData, hs]
    · cases ss with
      | nil => simp [refreshLiveData, hs, latestVal, cacheWrite]
      | cons s rest =>
        simp only [refreshLiveData, hs, List.head?_cons]
        by_cases hlive : isSessionInLiveWindow (some s) now = false
        · rw [if_pos hlive]
          exact cacheWrite_ne _ _ _ _ (fun h => CKey.noConfusion h)
        · rw [if_neg hlive]
          rcases hfail with hp | hp <;>
            simp [hp, writeIf_ne, driversWrite_ne, cacheWrite_ne, writeIf_none,
              writeIf_jnull, driversWrite_none, driversWrite_jnull]
  · intro u now st sk hfail
    rcases hs : u.sessions with e | ss
    · simp [refreshLiveData, hs]
    · cases ss with
      | nil => simp [refreshLiveData, hs, latestVal, cacheWrite]
      | cons s rest =>
        simp only [refreshLiveData, hs, List.head?_cons]
        by_cases hlive : isSessionInLiveWindow (some s) now = false
        · rw [if_pos hlive]
          exact cacheWrite_ne _ _ _ _ (fun h => CKey.noConfusion h)
        · rw [if_neg hlive]
          rcases hfail with hp | hp <;>
            simp [hp, writeIf_ne, driversWrite_ne, cacheWrite_ne, writeIf_none,
              writeIf_jnull, driversWrite_none, driversWrite_jnull]
  · intro u now st sk hfail
    rcases hs : u.sessions with e | ss
    · simp [refreshLiveData, hs]
    · cases ss with
      | nil => simp [refreshLiveData, hs, latestVal, cacheWrite]
      | cons s rest =>
        simp only [refreshLiveData, hs, List.head?_cons]
        by_cases hlive : isSessionInLiveWindow (some s) now = false
        · rw [if_pos hlive]
          exact cacheWrite_ne _ _ _ _ (fun h => CKey.noConfusion h)
        · rw [if_neg hlive]
          rcases hfail with hp | hp <;>
            simp [hp, writeIf_ne, driversWrite_ne, cacheWrite_ne, writeIf_none,
              writeIf_jnull, driversWrite_none, driversWrite_jnull]
  · intro u now st sk hfail
    rcases hs : u.sessions with e | ss
    · simp [refreshLiveData, hs]
    · cases ss with
      | nil => simp [refreshLiveData, hs, latestVal, cacheWrite]
      | cons s rest =>
        simp only [refreshLiveData, hs, List.head?_cons]
        by_cases hlive : isSessionInLiveWindow (some s) now = false
        · rw [if_pos hlive]
          exact cacheWrite_ne _ _ _ _ (fun h => CKey.noConfusion h)
        · rw [if_neg hlive]
          rcases hfail with hp | hp <;>
            simp [hp, writeIf_ne, driversWrite_ne, cacheWrite_ne, writeIf_none,
              writeIf_jnull, driversWrite_none, driversWrite_jnull]
  · intro u now st sk hfail
    refine ⟨?_, ?_⟩ <;>
    · rcases hs : u.sessions with e | ss
      · simp [refreshLiveData, hs]
      · cases ss with
        | nil => simp [refreshLiveData, hs, latestVal, cacheWrite]
        | cons s rest =>
          simp only [refreshLiveData, hs, List.head?_cons]
          by_cases hlive : isSessionInLiveWindow (some s) now = false
          · rw [if_pos hlive]
            exact cacheWrite_ne _ _ _ _ (fun h => CKey.noConfusion h)
          · rw [if_neg hlive]
            rcases hfail with hp | hp <;>
              simp [hp, writeIf_ne, driversWrite_ne, cacheWrite_ne, writeIf_none,
                writeIf_jnull, driversWrite_none, driversWrite_jnull]
  · intro u now st sk d hfail
    rcases hs : u.sessions with e | ss
    · simp [refreshLiveData, hs]
    · cases ss with
      | nil => simp [refreshLiveData, hs, latestVal, cacheWrite]
      | cons s rest =>
        simp only [refreshLiveData, hs, List.head?_cons]
        by_cases hlive : isSessionInLiveWindow (some s) now = false
        · rw [if_pos hlive]
          exact cacheWrite_ne _ _ _ _ (fun h => CKey.noConfusion h)
        · rw [if_neg hlive]
          rcases hfail with hp | hp <;>
            simp [hp, writeIf_ne, driversWrite_ne, cacheWrite_ne, writeIf_none,
              writeIf_jnull, driversWrite_none, driversWrite_jnull]
  · intro u st e hs
    simp [refreshBaseData, hs]
  · intro u st sk hfail
    have hopt : u.drivers.toOption = none ∨ u.drivers.toOption = some JVal.jnull := by
      rcases hfail with ⟨e, he⟩ | he <;> simp [he, Except.toOption]
    rcases hs : u.sessions with e | ss
    · constructor <;> simp [refreshBaseData, hs]
    · cases ss with
      | nil => constructor <;> simp [refreshBaseData, hs, latestVal, cacheWrite]
      | cons s rest =>
        rcases hopt with hp | hp <;>
          constructor <;>
            simp [refreshBaseData, hs, hp, driversWrite_none, driversWrite_jnull,
              latestVal, cacheWrite]

/-- Witness for `scheduler_failed_refresh_preserves_entries` at concrete
failing jobs: a failed meetings fetch, a live refresh whose positions
fetch threw, and a baseline refresh whose drivers fetch threw. -/
theorem scheduler_failed_refresh_preserves_entries_witness :
    refreshMeetings "2026" ⟨Except.error 0, fun _ => Except.error 0⟩ (fun _ => none) =
      (fun _ => none) ∧
    refreshLiveData ⟨Except.ok [⟨"9599", some 0, some 1⟩], none, none, none, none,
        none, none, none⟩ 0 (fun _ => none) (CKey.positions "9599") =
      (fun _ => none : Store) (CKey.positions "9599") ∧
    refreshBaseData ⟨Except.ok [⟨"9599", some 0, some 1⟩], Except.error 0⟩
        (fun _ => none) (CKey.drivers "9599") =
      (fun _ => none : Store) (CKey.drivers "9599") :=
  ⟨scheduler_failed_refresh_preserves_entries.1 "2026" _ _ 0 rfl,
   scheduler_failed_refresh_preserves_entries.2.2.2.2.1 _ 0 _ "9599" (Or.inl rfl),
   (scheduler_failed_refresh_preserves_entries.2.2.2.2.2.2.2.2.2.2.2.2 _ _ "9599"
      (Or.inl ⟨0, rfl⟩)).1⟩

/-! ### Client-side cache -/

theorem fetchBackend_fresh (st : ClientState) (key : String) (e : ClientEntry)
    (ttl now : Int) (hmem : st.mem key = some e)
    (hfresh : now - e.timestamp < ttl) :
    fetchBackend st key ttl now = (FetchOutcome.hit e.data, 0, st) := by
  simp [fetchBackend, cacheGet, hmem, hfresh]

theorem fetchBackend_stale_pending (st : ClientState) (key : String)
    (e : ClientEntry) (ttl now : Int) (hmem : st.mem key = some e)
    (hstale : ¬ (now - e.timestamp < ttl)) (hp : st.pending key = true) :
    fetchBackend st key ttl now = (FetchOutcome.staleHit e.data, 0, st) := by
  simp [fetchBackend, cacheGet, backgroundRefresh, hmem, hstale, hp]

theorem fetchBackendN_stale_pending (st : ClientState) (key : String)
    (e : ClientEntry) (ttl now : Int) (hmem : st.mem key = some e)
    (hstale : ¬ (now - e.timestamp < ttl)) (hp : st.pending key = true) :
    ∀ n, fetchBackendN st key ttl now n =
      (List.replicate n (FetchOutcome.staleHit e.data), 0, st) := by
  intro n
  induction n with
  | zero => rfl
  | succ n ih =>
    simp [fetchBackendN, fetchBackend_stale_pending st key e ttl now hmem hstale hp,
      ih, List.replicate_succ]

/-- Claim C5: with an entry for the key in the in-memory cache tier,
(i) if its age is strictly below the TTL, `fetchBackend` returns the
cached data with no network call and no state change; (ii) if its age is
at or above the TTL and no refresh is in flight, ten consecutive
(concurrently issued) `fetchBackend` calls all return the stale cached
value synchronously and start exactly one background refresh in total. -/
theorem clientCache_stale_while_revalidate (st : ClientState) (key : String)
    (e : ClientEntry) (ttl now : Int) (hmem : st.mem key = some e) :
    (now - e.timestamp < ttl →
      fetchBackend st key ttl now = (FetchOutcome.hit e.data, 0, st)) ∧
    (ttl ≤ now - e.timestamp → st.pending key = false →
      fetchBackendN st key ttl now 10 =
        (List.replicate 10 (FetchOutcome.staleHit e.data), 1, setPending st key)) := by
  constructor
  · intro hfresh
    exact fetchBackend_fresh st key e ttl now hmem hfresh
  · intro hstale hp
    have hstale' : ¬ (now - e.timestamp < ttl) := not_lt.mpr hstale
    have h1 : fetchBackend st key ttl now =
        (FetchOutcome.staleHit e.data, 1, setPending st key) := by
      simp [fetchBackend, cacheGet, backgroundRefresh, hmem, hstale', hp]
    have hmem2 : (setPending st key).mem key = some e := hmem
    have hp2 : (setPending st key).pending key = true := by simp [setPending]
    have h9 := fetchBackendN_stale_pending (setPending st key) key e ttl now
      hmem2 hstale' hp2 9
    show ((fetchBackend st key ttl now).1 ::
          (fetchBackendN (fetchBackend st key ttl now).2.2 key ttl now 9).1,
        (fetchBackend st key ttl now).2.1 +
          (fetchBackendN (fetchBackend st key ttl now).2.2 key ttl now 9).2.1,
        (fetchBackendN (fetchBackend st key ttl now).2.2 key ttl now 9).2.2) =
      (List.replicate 10 (FetchOutcome.staleHit e.data), 1, setPending st key)
    rw [h1]
    dsimp only
    rw [h9]
    simp [List.replicate_succ]

/-- Witness for `clientCache_stale_while_revalidate`: an entry written at
time 0 with TTL 100, read fresh at time 50 and stale at time 200. -/
theorem clientCache_stale_while_revalidate_witness :
    fetchBackend ⟨fun _ => some ⟨JVal.jraw 1, 0⟩, fun _ => none, fun _ => false⟩
        "k" 100 50 =
      (FetchOutcome.hit (JVal.jraw 1), 0,
        ⟨fun _ => some ⟨JVal.jraw 1, 0⟩, fun _ => none, fun _ => false⟩) ∧
    fetchBackendN ⟨fun _ => some ⟨JVal.jraw 1, 0⟩, fun _ => none, fun _ => false⟩
        "k" 100 200 10 =
      (List.replicate 10 (FetchOutcome.staleHit (JVal.jraw 1)), 1,
        setPending ⟨fun _ => some ⟨JVal.jraw 1, 0⟩, fun _ => none, fun _ => false⟩ "k") :=
  ⟨(clientCache_stale_while_revalidate
      ⟨fun _ => some ⟨JVal.jraw 1, 0⟩, fun _ => none, fun _ => false⟩
      "k" ⟨JVal.jraw 1, 0⟩ 100 50 rfl).1 (by decide),
   (clientCache_stale_while_revalidate
      ⟨fun _ => some ⟨JVal.jraw 1, 0⟩, fun _ => none, fun _ => false⟩
      "k" ⟨JVal.jraw 1, 0⟩ 100 200 rfl).2 (by decide) rfl⟩

end F1X
